import Mathlib

/-!
Formal model of the Referral Workflow dashboard's client-side logic,
shallowly embedded from the TypeScript source.

Each section embeds one part of the source (the file and symbol are named
in the comments) and proves the corresponding claim about it:
permission checks (`src/lib/permissions.ts`, `src/App.tsx`), user-access
fetching (`src/lib/access.ts`), provider-update email templating
(`src/pages/ReferralProviderUpdatesPage.tsx`), CSV export, draft
validation, schema reordering, column pinning and provider
synchronization (`src/pages/ReferralTablePage.tsx`), communication
buckets (`src/pages/ReportsPage.tsx`), and provider dirty-row diffing
(the table-settings page).

JavaScript string primitives (`trim`, `toLowerCase`, digit stripping,
`join`) are modelled as executable functions on `String.data` so that
every definition evaluates by kernel reduction.
-/

/-! ## JavaScript string primitives -/

/-- Whitespace as recognised by JavaScript's `String.prototype.trim`
(restricted to the code points that occur in this code base). -/
def jsWs (c : Char) : Bool :=
  c = ' ' || c = '\t' || c = '\n' || c = '\r'

/-- Model of JavaScript `s.trim()`. -/
def jsTrim (s : String) : String :=
  String.mk (((s.data.dropWhile jsWs).reverse.dropWhile jsWs).reverse)

/-- Model of JavaScript `s.toLowerCase()` (ASCII case folding suffices for
the status strings this code compares). -/
def jsToLower (s : String) : String :=
  String.mk (s.data.map Char.toLower)

/-- Model of JavaScript `xs.join(sep)` on an array of strings. -/
def joinWith (sep : String) : List String → String
  | [] => ""
  | [x] => x
  | x :: xs => x ++ sep ++ joinWith sep xs

/-- A cell value of a referral row: the TypeScript `RowValue = string |
boolean`.  Fields read from a record may also be absent, which is
modelled by wrapping in `Option`. -/
inductive RowValue where
  | str (s : String)
  | boolv (b : Bool)
deriving DecidableEq, Repr

/-- Model of JavaScript `String(v ?? '')` applied to an optional cell
value (`undefined` ↦ `''`, booleans stringify). -/
def jsString : Option RowValue → String
  | some (.str s) => s
  | some (.boolv b) => if b then "true" else "false"
  | none => ""

/-- Model of `typeof v === 'string' ? v : ''`. -/
def jsStrOnly : Option RowValue → String
  | some (.str s) => s
  | _ => ""

/-! ## C1 — permissions (`src/lib/permissions.ts`) and the
`/table-settings` route guard (`src/App.tsx`) -/

/-- `Role` from `src/lib/accessTypes.ts`: `'admin' | 'editor' | 'guest'`. -/
inductive Role where
  | admin
  | editor
  | guest
deriving DecidableEq, Repr

/-- `canEdit(role?: Role)` from `src/lib/permissions.ts`:
`role === 'admin' || role === 'editor'`. -/
def canEdit (role : Option Role) : Bool :=
  role = some Role.admin || role = some Role.editor

/-- `canAdmin(role?: Role)` from `src/lib/permissions.ts`:
`role === 'admin'`. -/
def canAdmin (role : Option Role) : Bool :=
  role = some Role.admin

/-- What the `AdminRoute` wrapper in `src/App.tsx` renders. -/
inductive AdminRouteRender where
  | page
  | redirectHome
  | blank
deriving DecidableEq, Repr

/-- `AdminRoute` from `src/App.tsx`: while loading it renders `null`;
afterwards it renders its children when `canAdmin(access?.role)` holds
and `<Navigate to="/" replace />` otherwise.  `App` mounts the
`/table-settings` page inside this wrapper, so this is the gate for the
admin-only table-settings page. -/
def adminRoute (loading : Bool) (accessRole : Option Role) : AdminRouteRender :=
  if loading then .blank
  else if canAdmin accessRole then .page
  else .redirectHome

/-- Claim C1: `canEdit` returns true exactly for the roles `admin` and
`editor`, `canAdmin` exactly for `admin`, both are false on an undefined
role, and the `/table-settings` route (once access has loaded) renders
its admin-only page exactly when `canAdmin` holds, redirecting to `/`
otherwise. -/
theorem claim_C1_permissions_and_admin_route :
    (∀ r : Option Role,
      (canEdit r = true ↔ r = some Role.admin ∨ r = some Role.editor) ∧
      (canAdmin r = true ↔ r = some Role.admin) ∧
      (adminRoute false r = .page ↔ canAdmin r = true) ∧
      (adminRoute false r = .page ∨ adminRoute false r = .redirectHome) ∧
      adminRoute true r = .blank) ∧
    canEdit none = false ∧ canAdmin none = false := by
  refine ⟨fun r => ?_, rfl, rfl⟩
  rcases r with - | r
  · simp [canEdit, canAdmin, adminRoute]
  · cases r <;> simp [canEdit, canAdmin, adminRoute]

/-! ## C10 — `fetchUserAccess` (`src/lib/access.ts`) -/

/-- The raw `user_access` record selected by `fetchUserAccess`
(`role, location, status`); every field may be absent or null. -/
structure AccessRecord where
  role : Option String
  location : Option String
  status : Option String
deriving DecidableEq, Repr

/-- Outcome of `supabase.auth.getSession()` as observed by
`fetchUserAccess`: an error, a session with no signed-in user id, or a
signed-in user id. -/
inductive SessionResult where
  | sessionError
  | noUser
  | user (id : String)
deriving DecidableEq, Repr

/-- Outcome of the `user_access ... .maybeSingle()` query: an error
(carrying its code), or data that is either `null` (no row) or a row. -/
inductive AccessQueryResult where
  | queryError (code : String)
  | found (data : Option AccessRecord)
deriving DecidableEq, Repr

/-- The value `fetchUserAccess` resolves with when it does not return
`null`: the spread of the fetched record plus the normalized status. -/
structure FetchedAccess where
  role : Option String
  location : Option String
  status : String
deriving DecidableEq, Repr

/-- `fetchUserAccess` from `src/lib/access.ts`, with the two remote calls
supplied as arguments.  Mirrors the source line by line: session error →
`null`; missing user id → `null`; query error (`PGRST116` or any other) →
`null`; otherwise the record is returned with
`status = (String(data?.status ?? '').trim().toLowerCase() === 'disabled')
? 'disabled' : 'active'`. -/
def fetchUserAccess (s : SessionResult) (q : AccessQueryResult) :
    Option FetchedAccess :=
  match s with
  | .sessionError => none
  | .noUser => none
  | .user _ =>
    match q with
    | .queryError code => if code = "PGRST116" then none else none
    | .found data =>
      let r0 : AccessRecord := data.getD ⟨none, none, none⟩
      let statusRaw := jsToLower (jsTrim (r0.status.getD ""))
      let status := if statusRaw = "disabled" then "disabled" else "active"
      some ⟨r0.role, r0.location, status⟩

/-- Claim C10: `fetchUserAccess` never throws; it returns `null` on a
session error, a missing user id, or a query error, and otherwise
returns the fetched record with its status normalized to `'active'`
unless the trimmed lower-cased status is exactly `'disabled'` (a missing
status, or missing row, normalizes to `'active'`). -/
theorem claim_C10_fetchUserAccess :
    (∀ q, fetchUserAccess .sessionError q = none ∧
          fetchUserAccess .noUser q = none) ∧
    (∀ uid code, fetchUserAccess (.user uid) (.queryError code) = none) ∧
    (∀ uid data, ∃ fa,
      fetchUserAccess (.user uid) (.found data) = some fa ∧
      fa.role = (data.getD ⟨none, none, none⟩).role ∧
      fa.location = (data.getD ⟨none, none, none⟩).location ∧
      (fa.status = "disabled" ∨ fa.status = "active") ∧
      (fa.status = "disabled" ↔
        jsToLower (jsTrim ((data.getD ⟨none, none, none⟩).status.getD "")) =
          "disabled")) ∧
    (∀ uid, fetchUserAccess (.user uid) (.found none) =
      some ⟨none, none, "active"⟩) ∧
    (∀ uid ro lo, fetchUserAccess (.user uid) (.found (some ⟨ro, lo, none⟩)) =
      some ⟨ro, lo, "active"⟩) := by
  refine ⟨fun q => ⟨rfl, rfl⟩, fun uid code => by simp [fetchUserAccess],
    fun uid data => ?_, fun uid => rfl, fun uid ro lo => rfl⟩
  refine ⟨_, rfl, rfl, rfl, ?_, ?_⟩
  · by_cases h :
      jsToLower (jsTrim ((data.getD ⟨none, none, none⟩).status.getD "")) =
        "disabled" <;> simp [h]
  · by_cases h :
      jsToLower (jsTrim ((data.getD ⟨none, none, none⟩).status.getD "")) =
        "disabled" <;> simp [h]

/-! ## C2 — `buildEmailForStatus`
(`src/pages/ReferralProviderUpdatesPage.tsx`) -/

/-- One element of the `patients` argument of `buildEmailForStatus`:
`{ name: string; apptDateTime?: string; status?: string }`. -/
structure EmailPatient where
  name : String
  apptDateTime : Option String
  status : Option String
deriving DecidableEq, Repr

/-- `formatDateTimeDisplay` from `ReferralProviderUpdatesPage.tsx`.  The
`Date` parse plus `Intl.DateTimeFormat` pipeline is abstracted as
`dateFmt : String → Option String` (`none` models a `NaN` date, in which
case the raw value is returned; `some t` models the formatted string). -/
def formatDateTimeDisplay (dateFmt : String → Option String)
    (value : String) : String :=
  if jsTrim value = "" then ""
  else match dateFmt value with
    | none => value
    | some t => t

/-- The per-patient entry of `apptLines` in `buildEmailForStatus`:
`Patient Name: <name>` followed, when the trimmed `apptDateTime` is
non-blank, by an `Appointment Date & Time:` line. -/
def apptEntry (dateFmt : String → Option String) (p : EmailPatient) :
    String :=
  let appt := jsTrim (p.apptDateTime.getD "")
  let apptDisplay := if appt = "" then "" else formatDateTimeDisplay dateFmt appt
  "Patient Name: " ++ p.name ++
    (if apptDisplay = "" then ""
     else "\nAppointment Date & Time: " ++ apptDisplay)

/-- The per-patient entry of `nameLines` in `buildEmailForStatus`. -/
def nameEntry (p : EmailPatient) : String :=
  "Patient Name: " ++ p.name

/-- The per-patient entry of `cancelledLines` in `buildEmailForStatus`. -/
def cancelledEntry (dateFmt : String → Option String) (p : EmailPatient) :
    String :=
  let appt := jsTrim (p.apptDateTime.getD "")
  let apptDisplay := if appt = "" then "" else formatDateTimeDisplay dateFmt appt
  "Patient Name: " ++ p.name ++
    (if apptDisplay = "" then ""
     else "\nOriginal Appointment Date: " ++ apptDisplay) ++
    "\nStatus: Cancelled / No Show"

/-- `patients.length ? patients.map(entry).join('\n\n') : 'Patient Name:
(No patients)'`. -/
def emailLines (entry : EmailPatient → String) (patients : List EmailPatient) :
    String :=
  match patients with
  | [] => "Patient Name: (No patients)"
  | _ => joinWith "\n\n" (patients.map entry)

/-- An email as produced by `buildEmailForStatus`. -/
structure EmailMessage where
  subject : String
  body : String
deriving DecidableEq, Repr

/-- `statusLabel` from `ReferralProviderUpdatesPage.tsx` (used by the
fall-through branch of `buildEmailForStatus`). -/
def updatesStatusLabel (value : String) : String :=
  if value = "APPT_SCHEDULED" then "Appt scheduled"
  else if value = "NO_RESPONSE_3_ATTEMPTS" then "No response (3 attempts)"
  else if value = "NOT_INTERESTED" then "Not interested"
  else if value = "CANCELLED" then "Cancelled"
  else if value = "NO_SHOW" then "No show"
  else if value = "CANCELLED/ NO_SHOW" then "Cancelled / No show"
  else value

/-- `buildEmailForStatus` from `ReferralProviderUpdatesPage.tsx`.  The
`providerName` and `practiceName` arguments are unused by the source
(they are bound to `_providerName` / `_practiceName`) and are therefore
omitted here; `dateFmt` abstracts the date-formatting collaborator as in
`formatDateTimeDisplay`. -/
def buildEmailForStatus (dateFmt : String → Option String) (status : String)
    (patients : List EmailPatient) : EmailMessage :=
  let greeting := "Hello,\n\n"
  let signature := "\n\nThank you,\nConvergence Health\n"
  if status = "APPT_SCHEDULED" then
    { subject := "Patient Update – Appointment Scheduled"
      body := greeting ++
        "We are writing to inform you that the following patient(s) has been scheduled for an appointment with our office:\n\n" ++
        emailLines (apptEntry dateFmt) patients ++ "\n\n" ++
        "Please let us know if you need any additional information." ++
        signature }
  else if status = "NO_RESPONSE_3_ATTEMPTS" then
    { subject := "Patient Update – No Response After Contact Attempts"
      body := greeting ++
        "We have made multiple attempts to contact the following patient(s) regarding their referral but have not received a response:\n\n" ++
        emailLines nameEntry patients ++ "\n\n" ++
        "At this time, the patient(s) has not scheduled an appointment. If you would like us to continue outreach or have updated contact information, please let us know." ++
        signature }
  else if status = "NOT_INTERESTED" then
    { subject := "Patient Update – Not Interested in Scheduling"
      body := greeting ++
        "We contacted the following patient(s) regarding their referral. The patient(s) has informed us that they are not interested in scheduling an appointment at this time:\n\n" ++
        emailLines nameEntry patients ++ "\n\n" ++
        "Please let us know if you would like us to follow up again in the future." ++
        signature }
  else if status = "CANCELLED/ NO_SHOW" then
    { subject := "Patient Update – Appointment Cancelled / No Show"
      body := greeting ++
        "We are writing to inform you that the following patient(s) did not complete their scheduled appointment:\n\n" ++
        emailLines (cancelledEntry dateFmt) patients ++ "\n\n" ++
        "If you would like us to attempt rescheduling or follow up further, please let us know how you would like us to proceed." ++
        signature }
  else
    { subject := "Patient Update – " ++ updatesStatusLabel status
      body := greeting ++ emailLines nameEntry patients ++ signature }

/-! ### Trimming lemmas shared by the email and validation claims -/

/-- Front- and back-trimming commute. -/
theorem dropWhile_rdropWhile_comm (p : α → Bool) (l : List α) :
    List.dropWhile p (List.rdropWhile p l) =
      List.rdropWhile p (List.dropWhile p l) := by
  induction l using List.reverseRecOn with
  | nil => simp
  | append_singleton l x ih =>
    by_cases hx : p x
    · rw [List.rdropWhile_concat_pos p l x hx, ih]
      rw [show List.dropWhile p (l ++ [x]) =
          if (List.dropWhile p l).isEmpty then List.dropWhile p [x]
          else List.dropWhile p l ++ [x] from List.dropWhile_append]
      cases hd : (List.dropWhile p l).isEmpty
      · simp only [hd, Bool.false_eq_true, if_false]
        rw [List.rdropWhile_concat_pos p _ x hx]
      · have hnil : List.dropWhile p l = [] := List.isEmpty_iff.mp hd
        simp [hnil, List.dropWhile_cons, hx]
    · rw [List.rdropWhile_concat_neg p l x hx]
      rw [show List.dropWhile p (l ++ [x]) =
          if (List.dropWhile p l).isEmpty then List.dropWhile p [x]
          else List.dropWhile p l ++ [x] from List.dropWhile_append]
      cases hd : (List.dropWhile p l).isEmpty
      · simp only [hd, Bool.false_eq_true, if_false]
        rw [List.rdropWhile_concat_neg p _ x hx]
      · simp [List.dropWhile_cons, hx, List.rdropWhile_singleton]

/-- The character-list form of `jsTrim`. -/
theorem jsTrim_data (s : String) :
    (jsTrim s).data = List.rdropWhile jsWs (List.dropWhile jsWs s.data) := rfl

/-- JavaScript `trim` is idempotent. -/
theorem jsTrim_idem (s : String) : jsTrim (jsTrim s) = jsTrim s := by
  have key : List.rdropWhile jsWs (List.dropWhile jsWs (jsTrim s).data) =
      (jsTrim s).data := by
    rw [jsTrim_data, dropWhile_rdropWhile_comm, List.dropWhile_idempotent,
      List.rdropWhile_idempotent]
  calc jsTrim (jsTrim s)
      = String.mk (List.rdropWhile jsWs
          (List.dropWhile jsWs (jsTrim s).data)) := rfl
    _ = String.mk (jsTrim s).data := by rw [key]
    _ = jsTrim s := rfl

/-- On a non-blank, already-trimmed value, the abstract date formatter
produces a non-empty display string (either the raw value itself for an
unparsable date, or the formatter output, non-empty by hypothesis). -/
theorem formatDateTimeDisplay_ne_empty (dateFmt : String → Option String)
    (hfmt : ∀ s t, dateFmt s = some t → t ≠ "") (raw : String)
    (h : jsTrim raw ≠ "") :
    formatDateTimeDisplay dateFmt (jsTrim raw) ≠ "" := by
  unfold formatDateTimeDisplay
  rw [jsTrim_idem]
  simp only [h, if_neg, not_false_iff]
  cases hfd : dateFmt (jsTrim raw) with
  | none => simpa using h
  | some t => simpa using hfmt _ t hfd

/-- Claim C2: for each of the four provider-update statuses,
`buildEmailForStatus` returns the fixed subject for that status; its
body wraps the patient block `emailLines` (one `Patient Name: <name>`
entry per patient, joined in list order, or `Patient Name: (No
patients)` for an empty list) in the fixed greeting, intro, closing and
signature text; and for `APPT_SCHEDULED` a patient's entry carries an
`Appointment Date & Time:` line exactly when that patient's
`apptDateTime` is non-blank.  The hypothesis states that the abstract
`Intl.DateTimeFormat` collaborator never formats a date to the empty
string. -/
theorem claim_C2_buildEmailForStatus (dateFmt : String → Option String)
    (hfmt : ∀ s t, dateFmt s = some t → t ≠ "") :
    ∀ patients : List EmailPatient,
    (buildEmailForStatus dateFmt "APPT_SCHEDULED" patients).subject =
      "Patient Update – Appointment Scheduled" ∧
    (buildEmailForStatus dateFmt "NO_RESPONSE_3_ATTEMPTS" patients).subject =
      "Patient Update – No Response After Contact Attempts" ∧
    (buildEmailForStatus dateFmt "NOT_INTERESTED" patients).subject =
      "Patient Update – Not Interested in Scheduling" ∧
    (buildEmailForStatus dateFmt "CANCELLED/ NO_SHOW" patients).subject =
      "Patient Update – Appointment Cancelled / No Show" ∧
    (buildEmailForStatus dateFmt "APPT_SCHEDULED" patients).body =
      "Hello,\n\n" ++
      "We are writing to inform you that the following patient(s) has been scheduled for an appointment with our office:\n\n" ++
      emailLines (apptEntry dateFmt) patients ++ "\n\n" ++
      "Please let us know if you need any additional information." ++
      "\n\nThank you,\nConvergence Health\n" ∧
    (buildEmailForStatus dateFmt "NO_RESPONSE_3_ATTEMPTS" patients).body =
      "Hello,\n\n" ++
      "We have made multiple attempts to contact the following patient(s) regarding their referral but have not received a response:\n\n" ++
      emailLines nameEntry patients ++ "\n\n" ++
      "At this time, the patient(s) has not scheduled an appointment. If you would like us to continue outreach or have updated contact information, please let us know." ++
      "\n\nThank you,\nConvergence Health\n" ∧
    (buildEmailForStatus dateFmt "NOT_INTERESTED" patients).body =
      "Hello,\n\n" ++
      "We contacted the following patient(s) regarding their referral. The patient(s) has informed us that they are not interested in scheduling an appointment at this time:\n\n" ++
      emailLines nameEntry patients ++ "\n\n" ++
      "Please let us know if you would like us to follow up again in the future." ++
      "\n\nThank you,\nConvergence Health\n" ∧
    (buildEmailForStatus dateFmt "CANCELLED/ NO_SHOW" patients).body =
      "Hello,\n\n" ++
      "We are writing to inform you that the following patient(s) did not complete their scheduled appointment:\n\n" ++
      emailLines (cancelledEntry dateFmt) patients ++ "\n\n" ++
      "If you would like us to attempt rescheduling or follow up further, please let us know how you would like us to proceed." ++
      "\n\nThank you,\nConvergence Health\n" ∧
    (∀ e : EmailPatient → String,
      emailLines e [] = "Patient Name: (No patients)" ∧
      (patients ≠ [] →
        emailLines e patients = joinWith "\n\n" (patients.map e))) ∧
    (∀ p : EmailPatient, nameEntry p = "Patient Name: " ++ p.name) ∧
    (∀ p : EmailPatient, ∃ rest,
      cancelledEntry dateFmt p = "Patient Name: " ++ p.name ++ rest) ∧
    (∀ p : EmailPatient,
      (jsTrim (p.apptDateTime.getD "") = "" →
        apptEntry dateFmt p = "Patient Name: " ++ p.name) ∧
      (jsTrim (p.apptDateTime.getD "") ≠ "" → ∃ disp, disp ≠ "" ∧
        apptEntry dateFmt p =
          "Patient Name: " ++ p.name ++ "\nAppointment Date & Time: " ++ disp)) := by
  intro patients
  refine ⟨rfl, rfl, rfl, rfl, rfl, rfl, rfl, rfl, ?_, fun p => rfl, ?_, ?_⟩
  · intro e
    refine ⟨rfl, fun hne => ?_⟩
    cases patients with
    | nil => exact absurd rfl hne
    | cons q qs => rfl
  · intro p
    exact ⟨_, String.append_assoc _ _ _⟩
  · intro p
    constructor
    · intro hblank
      unfold apptEntry
      simp [hblank]
    · intro hne
      have hdisp := formatDateTimeDisplay_ne_empty dateFmt hfmt
        (p.apptDateTime.getD "") hne
      refine ⟨formatDateTimeDisplay dateFmt (jsTrim (p.apptDateTime.getD "")),
        hdisp, ?_⟩
      unfold apptEntry
      simp only [hne, if_neg, not_false_iff]
      simp [hdisp, String.append_assoc]

/-- Witness for C2: the claim instantiated at a formatter that parses no
date, with one patient carrying a non-blank appointment date and the
empty patient list exercised through the `emailLines` conjunct. -/
theorem claim_C2_buildEmailForStatus_witness :
    (∀ s t, (fun (_ : String) => (none : Option String)) s = some t → t ≠ "") ∧
    (buildEmailForStatus (fun _ => none) "APPT_SCHEDULED"
        [⟨"Jane Doe", some " 2024-05-01T10:00 ", none⟩]).subject =
      "Patient Update – Appointment Scheduled" :=
  ⟨fun s t h => by simp at h,
   (claim_C2_buildEmailForStatus (fun _ => none) (fun s t h => by simp at h)
     [⟨"Jane Doe", some " 2024-05-01T10:00 ", none⟩]).1⟩

/-! ## C4 — `downloadCsv` (`src/pages/ReferralTablePage.tsx`) -/

/-- `FieldType` from `ReferralTablePage.tsx`:
`'text' | 'checkbox' | 'date' | 'datetime'`. -/
inductive FieldType where
  | text
  | checkbox
  | date
  | datetime
deriving DecidableEq, Repr

/-- `ColumnDef` from `ReferralTablePage.tsx`. -/
structure ColumnDef where
  key : String
  label : String
  type : FieldType
deriving DecidableEq, Repr

/-- A referral row as indexed by column key (`Row = { id, archived? } &
Record<string, RowValue>`); absent keys read as `undefined`. -/
def CsvRow := String → Option RowValue

/-- The `/[",\n\r]/.test(s)` check of `downloadCsv`'s `escape`. -/
def csvNeedsQuotes (s : String) : Bool :=
  s.data.any (fun c => c = '"' || c = ',' || c = '\n' || c = '\r')

/-- The `s.replace(/"/g, '""')` step of `downloadCsv`'s `escape`. -/
def csvDoubleQuotes (s : String) : String :=
  String.mk (s.data.flatMap (fun c => if c = '"' then ['"', '"'] else [c]))

/-- `escape` from `downloadCsv`: double every `"`, and wrap the result in
double quotes when the original value contains `"`, `,`, newline or
carriage return. -/
def csvEscape (s : String) : String :=
  if csvNeedsQuotes s then "\"" ++ csvDoubleQuotes s ++ "\"" else csvDoubleQuotes s

/-- `downloadCsv` from `ReferralTablePage.tsx`, restricted to the CSV
text it builds (the `Blob`/anchor download mechanics are presentation).
Header labels and row fields are escaped, joined with commas, the lines
joined with a newline, and a trailing newline appended. -/
def downloadCsvText (schema : List ColumnDef) (rows : List CsvRow) : String :=
  let header := schema.map (·.label)
  let keys := schema.map (·.key)
  let lines := joinWith "," (header.map csvEscape) ::
    rows.map (fun r => joinWith "," (keys.map (fun k => csvEscape (jsString (r k)))))
  joinWith "\n" lines ++ "\n"

/-- Replacing each double quote by two of them, written as the spec
phrases it: a straight recursion over the characters. -/
def doubleQuotesSpec : List Char → List Char
  | [] => []
  | c :: cs =>
    if c = '"' then '"' :: '"' :: doubleQuotesSpec cs
    else c :: doubleQuotesSpec cs

/-- The source's `replace(/"/g, '""')` agrees with the character-wise
doubling recursion. -/
theorem csvDoubleQuotes_data (s : String) :
    (csvDoubleQuotes s).data = doubleQuotesSpec s.data := by
  show s.data.flatMap (fun c => if c = '"' then ['"', '"'] else [c]) =
    doubleQuotesSpec s.data
  induction s.data with
  | nil => rfl
  | cons c cs ih =>
    by_cases hc : c = '"' <;>
      simp [List.flatMap_cons, doubleQuotesSpec, hc, ih]

/-- Claim C4: `downloadCsv` produces one header line of escaped schema
labels followed by exactly one line per exported row, in row order; each
field is serialized by doubling its double quotes, and is wrapped in
quotes exactly when the raw value contains a double quote, comma,
newline, or carriage return. -/
theorem claim_C4_downloadCsv :
    (∀ (schema : List ColumnDef) (rows : List CsvRow), ∃ ls : List String,
      downloadCsvText schema rows = joinWith "\n" ls ++ "\n" ∧
      ls.length = 1 + rows.length ∧
      ls.head? = some (joinWith "," (schema.map (fun c => csvEscape c.label))) ∧
      ls.tail = rows.map (fun r => joinWith ","
        (schema.map (fun c => csvEscape (jsString (r c.key)))))) ∧
    (∀ s : String,
      (csvNeedsQuotes s = true ↔
        '"' ∈ s.data ∨ ',' ∈ s.data ∨ '\n' ∈ s.data ∨ '\r' ∈ s.data) ∧
      (csvDoubleQuotes s).data = doubleQuotesSpec s.data ∧
      (csvNeedsQuotes s = true →
        csvEscape s = "\"" ++ csvDoubleQuotes s ++ "\"") ∧
      (csvNeedsQuotes s = false → csvEscape s = csvDoubleQuotes s)) := by
  constructor
  · intro schema rows
    refine ⟨joinWith "," (schema.map (fun c => csvEscape c.label)) ::
      rows.map (fun r => joinWith ","
        (schema.map (fun c => csvEscape (jsString (r c.key))))), ?_, ?_, ?_, ?_⟩
    · simp only [downloadCsvText, List.map_map]
      rfl
    · simp [Nat.add_comm]
    · rfl
    · rfl
  · intro s
    refine ⟨?_, csvDoubleQuotes_data s, fun h => by simp [csvEscape, h],
      fun h => by simp [csvEscape, h]⟩
    unfold csvNeedsQuotes
    rw [List.any_eq_true]
    constructor
    · rintro ⟨c, hc, hpc⟩
      simp only [Bool.or_eq_true, decide_eq_true_eq] at hpc
      rcases hpc with ((h1 | h2) | h3) | h4
      · exact Or.inl (h1 ▸ hc)
      · exact Or.inr (Or.inl (h2 ▸ hc))
      · exact Or.inr (Or.inr (Or.inl (h3 ▸ hc)))
      · exact Or.inr (Or.inr (Or.inr (h4 ▸ hc)))
    · rintro (h | h | h | h) <;> exact ⟨_, h, by simp⟩

/-- Witness for C4: the escape characterization applied to a concrete
field containing a comma and a quote. -/
theorem claim_C4_downloadCsv_witness :
    csvNeedsQuotes "a,\"b" = true ∧
    csvEscape "a,\"b" = "\"" ++ csvDoubleQuotes "a,\"b" ++ "\"" :=
  ⟨by decide, (claim_C4_downloadCsv.2 "a,\"b").2.2.1 (by decide)⟩

/-! ## C5 — `isProviderDirty` / `saveProviderRow`
(table-settings page, `src/unnamed/part_006`) -/

/-- `ProviderRow` from the table-settings page (the `editHistory` array
plays no part in the dirty check and is omitted). -/
structure ProviderRow where
  id : String
  practice : String
  provider : String
  contactPhone : String
  contactEmail : String
  address : String
  isActive : Bool
deriving DecidableEq, Repr

/-- The `originalProviders` snapshot map
(`Record<string, ProviderRow>`). -/
def ProviderSnapshots := String → Option ProviderRow

/-- `isProviderDirty` from the table-settings page: a row with no stored
original snapshot is not dirty; otherwise the six tracked fields are
compared against the snapshot. -/
def isProviderDirty (originals : ProviderSnapshots) (p : ProviderRow) : Bool :=
  match originals p.id with
  | none => false
  | some o =>
    p.practice != o.practice ||
    p.provider != o.provider ||
    p.contactPhone != o.contactPhone ||
    p.contactEmail != o.contactEmail ||
    p.address != o.address ||
    p.isActive != o.isActive

/-- Model of JavaScript truthiness for `string | null`
(`if (savingProviderId) return` skips only a non-null, non-empty id). -/
def optStrTruthy : Option String → Bool
  | some s => s != ""
  | none => false

/-- The guard chain of `saveProviderRow(id)`: it returns early (issues
no update) on an empty id, while another save is in flight, when the id
matches no filtered row, and when the matched row is not dirty; only
otherwise does it issue the `referral_providers` update. -/
def saveProviderRowIssuesUpdate (savingProviderId : Option String)
    (filteredProviders : List ProviderRow) (originals : ProviderSnapshots)
    (id : String) : Bool :=
  if id = "" then false
  else if optStrTruthy savingProviderId then false
  else
    match filteredProviders.find? (fun x => x.id = id) with
    | none => false
    | some row => isProviderDirty originals row

/-- Claim C5: a provider row is dirty exactly when one of its six
tracked fields differs from its stored original snapshot; a row with no
snapshot is never dirty; and `saveProviderRow` issues a database update
only for a row that is found and dirty. -/
theorem claim_C5_isProviderDirty (originals : ProviderSnapshots)
    (p : ProviderRow) :
    (isProviderDirty originals p = true ↔ ∃ o, originals p.id = some o ∧
      (p.practice ≠ o.practice ∨ p.provider ≠ o.provider ∨
       p.contactPhone ≠ o.contactPhone ∨ p.contactEmail ≠ o.contactEmail ∨
       p.address ≠ o.address ∨ p.isActive ≠ o.isActive)) ∧
    (originals p.id = none → isProviderDirty originals p = false) ∧
    (∀ (savingProviderId : Option String)
       (filteredProviders : List ProviderRow) (id : String),
      saveProviderRowIssuesUpdate savingProviderId filteredProviders
          originals id = true →
        ∃ row, filteredProviders.find? (fun x => x.id = id) = some row ∧
          isProviderDirty originals row = true) := by
  refine ⟨?_, ?_, ?_⟩
  · unfold isProviderDirty
    cases ho : originals p.id with
    | none => simp [ho]
    | some o =>
      simp only [ho, Option.some.injEq]
      constructor
      · intro h
        refine ⟨o, rfl, ?_⟩
        simpa [bne_iff_ne, or_assoc] using h
      · rintro ⟨o2, rfl, h⟩
        simpa [bne_iff_ne, or_assoc] using h
  · intro ho
    unfold isProviderDirty
    simp [ho]
  · intro sp fps id h
    unfold saveProviderRowIssuesUpdate at h
    by_cases hid : id = ""
    · simp [hid] at h
    · simp only [hid, if_false] at h
      by_cases hsp : optStrTruthy sp
      · simp [hsp] at h
      · simp only [hsp, Bool.false_eq_true, if_false] at h
        cases hf : fps.find? (fun x => x.id = id) with
        | none => rw [hf] at h; exact absurd h (by simp)
        | some row => exact ⟨row, rfl, by rwa [hf] at h⟩

/-- Witness for C5: a concrete row whose practice differs from its
snapshot is dirty, exercised through the dirty characterization. -/
theorem claim_C5_isProviderDirty_witness :
    (fun i => if i = "p1" then
        some (⟨"p1", "Old Practice", "Dr. A", "", "", "", true⟩ : ProviderRow)
      else none) ("p1" : String) = some ⟨"p1", "Old Practice", "Dr. A", "", "", "", true⟩ ∧
    isProviderDirty
      (fun i => if i = "p1" then
        some ⟨"p1", "Old Practice", "Dr. A", "", "", "", true⟩ else none)
      ⟨"p1", "New Practice", "Dr. A", "", "", "", true⟩ = true :=
  ⟨by decide,
   (claim_C5_isProviderDirty
      (fun i => if i = "p1" then
        some ⟨"p1", "Old Practice", "Dr. A", "", "", "", true⟩ else none)
      ⟨"p1", "New Practice", "Dr. A", "", "", "", true⟩).1.mpr
     ⟨⟨"p1", "Old Practice", "Dr. A", "", "", "", true⟩, by decide,
      Or.inl (by decide)⟩⟩

/-! ## C6 — provider synchronization effect
(`src/pages/ReferralTablePage.tsx`, `useEffect` on `providerOptions`) -/

/-- `ReferralProviderOption` from `ReferralTablePage.tsx`, with the id
already stringified (the effect compares `String(x.id) ===
String(providerId)`). -/
structure ProviderOption where
  id : String
  referral_provider : Option String
  provider_practice : Option String
deriving DecidableEq, Repr

/-- The slice of a referral row touched by the provider-synchronization
effect; all other keys of the record are carried in `rest` and never
written. -/
structure SyncRow where
  referringProviderId : Option RowValue
  referringProvider : Option RowValue
  referringProviderPractice : Option RowValue
  rest : List (String × RowValue)
deriving DecidableEq, Repr

/-- The row-mapping function of the `useEffect` that runs when
`providerOptions` loads: rows whose `referringProviderId` is empty,
`'__other__'`, `'__unknown__'`, or matches no option are returned as-is;
otherwise `referringProvider` and `referringProviderPractice` are set to
the matched option's trimmed `referral_provider` / `provider_practice`
(skipping the write when both already agree). -/
def syncRow (opts : List ProviderOption) (r : SyncRow) : SyncRow :=
  let providerId := jsStrOnly r.referringProviderId
  if providerId = "" || providerId = "__other__" || providerId = "__unknown__"
  then r
  else
    match opts.find? (fun x => x.id = providerId) with
    | none => r
    | some p =>
      let providerName := jsTrim (p.referral_provider.getD "")
      let practice := jsTrim (p.provider_practice.getD "")
      let practiceSame := jsString r.referringProviderPractice = practice
      let providerSame := jsString r.referringProvider = providerName
      if practiceSame && providerSame then r
      else { r with referringProvider := some (.str providerName),
                    referringProviderPractice := some (.str practice) }

/-- The whole effect: it returns without touching the rows when
`providerOptions.length === 0`, and otherwise maps `syncRow` over the
loaded rows. -/
def syncRows (opts : List ProviderOption) (rows : List SyncRow) :
    List SyncRow :=
  if opts.isEmpty then rows else rows.map (syncRow opts)

/-- Claim C6: the provider-synchronization pass rewrites exactly the
rows whose `referringProviderId` matches a directory entry — setting
`referringProvider` to the entry's trimmed `referral_provider` and
`referringProviderPractice` to its trimmed `provider_practice` while
leaving the id and every other field alone — and leaves every row whose
id is empty, `'__other__'`, `'__unknown__'`, or unmatched unchanged. -/
theorem claim_C6_provider_sync (opts : List ProviderOption) (r : SyncRow) :
    (∀ p, jsStrOnly r.referringProviderId ≠ "" →
      jsStrOnly r.referringProviderId ≠ "__other__" →
      jsStrOnly r.referringProviderId ≠ "__unknown__" →
      opts.find? (fun x => x.id = jsStrOnly r.referringProviderId) = some p →
      jsString (syncRow opts r).referringProvider =
          jsTrim (p.referral_provider.getD "") ∧
      jsString (syncRow opts r).referringProviderPractice =
          jsTrim (p.provider_practice.getD "") ∧
      (syncRow opts r).referringProviderId = r.referringProviderId ∧
      (syncRow opts r).rest = r.rest) ∧
    (jsStrOnly r.referringProviderId = "" ∨
     jsStrOnly r.referringProviderId = "__other__" ∨
     jsStrOnly r.referringProviderId = "__unknown__" →
      syncRow opts r = r) ∧
    (opts.find? (fun x => x.id = jsStrOnly r.referringProviderId) = none →
      syncRow opts r = r) ∧
    (∀ rows : List SyncRow, opts ≠ [] →
      syncRows opts rows = rows.map (syncRow opts)) ∧
    (∀ rows : List SyncRow, syncRows [] rows = rows) := by
  refine ⟨?_, ?_, ?_, ?_, fun rows => rfl⟩
  · intro p h1 h2 h3 hfind
    unfold syncRow
    simp only [h1, h2, h3, Bool.or_eq_true, decide_eq_true_eq, or_self,
      if_false, hfind]
    set providerName := jsTrim (p.referral_provider.getD "") with hname
    set practice := jsTrim (p.provider_practice.getD "") with hprac
    by_cases hsame : jsString r.referringProviderPractice = practice ∧
        jsString r.referringProvider = providerName
    · have hb : (decide (jsString r.referringProviderPractice = practice) &&
          decide (jsString r.referringProvider = providerName)) = true := by
        simp [hsame.1, hsame.2]
      simp only [hb, if_true]
      simp [hsame.1, hsame.2]
    · have hb : (decide (jsString r.referringProviderPractice = practice) &&
          decide (jsString r.referringProvider = providerName)) = false := by
        rcases not_and_or.mp hsame with h | h <;> simp [h]
      simp only [hb, Bool.false_eq_true, if_false]
      simp [jsString]
  · intro h
    unfold syncRow
    rcases h with h | h | h <;> simp [h]
  · intro hfind
    unfold syncRow
    by_cases hid : jsStrOnly r.referringProviderId = "" ∨
        jsStrOnly r.referringProviderId = "__other__" ∨
        jsStrOnly r.referringProviderId = "__unknown__"
    · rcases hid with h | h | h <;> simp [h]
    · push_neg at hid
      simp only [hid.1, hid.2.1, hid.2.2, Bool.or_eq_true, decide_eq_true_eq,
        or_self, if_false, hfind]
  · intro rows hopts
    unfold syncRows
    simp [List.isEmpty_iff, hopts]

/-- Witness for C6: a row pointing at directory entry `7` gets that
entry's trimmed provider name. -/
theorem claim_C6_provider_sync_witness :
    jsStrOnly (some (RowValue.str "7")) ≠ "" ∧
    ([(⟨"7", some " Dr. Who ", some " Practice A "⟩ : ProviderOption)].find?
        (fun x => x.id = jsStrOnly (some (RowValue.str "7"))) =
      some ⟨"7", some " Dr. Who ", some " Practice A "⟩) ∧
    jsString (syncRow [⟨"7", some " Dr. Who ", some " Practice A "⟩]
        ⟨some (.str "7"), some (.str "old"), none,
          [("patientName", .str "Pat")]⟩).referringProvider =
      jsTrim " Dr. Who " :=
  ⟨by decide, by decide,
   ((claim_C6_provider_sync [⟨"7", some " Dr. Who ", some " Practice A "⟩]
      ⟨some (.str "7"), some (.str "old"), none,
        [("patientName", .str "Pat")]⟩).1
     ⟨"7", some " Dr. Who ", some " Practice A "⟩
     (by decide) (by decide) (by decide) (by decide)).1⟩

/-! ## C7 — schema-reordering helpers
(`withReferringProviderPractice`, `withStatusEmailSentAfterApptDateTime`
in `src/pages/ReferralTablePage.tsx`) -/

/-- Whether the character list begins with the given pattern. -/
def startsWithChars : List Char → List Char → Bool
  | [], _ => true
  | _ :: _, [] => false
  | p :: ps, c :: cs => p = c && startsWithChars ps cs

/-- Whether the regex `referring\s*provider` matches at the head of the
(already lower-cased) character list. -/
def rpMatchHere (l : List Char) : Bool :=
  startsWithChars "referring".data l &&
  startsWithChars "provider".data ((l.drop 9).dropWhile jsWs)

/-- Whether `referring\s*provider` matches anywhere in the list. -/
def rpMatchAnywhere : List Char → Bool
  | [] => false
  | c :: cs => rpMatchHere (c :: cs) || rpMatchAnywhere cs

/-- The `/referring\s*provider/i.test(label)` check used to locate the
referral-provider column. -/
def labelMatchesRP (label : String) : Bool :=
  rpMatchAnywhere (jsToLower label).data

/-- The `findIndex` predicate of both schema-reordering helpers:
`c.key === 'referringProvider' || /referring\s*provider/i.test(c.label)`. -/
def isReferralProviderCol (c : ColumnDef) : Bool :=
  c.key = "referringProvider" || labelMatchesRP c.label

/-- The column inserted by `withReferringProviderPractice`. -/
def referringProviderPracticeCol : ColumnDef :=
  ⟨"referringProviderPractice", "Referral Provider Practice", .text⟩

/-- `withReferringProviderPractice` from `ReferralTablePage.tsx`. -/
def withReferringProviderPractice (schema : List ColumnDef) :
    List ColumnDef :=
  if schema.any (fun c => c.key = "referringProviderPractice") then schema
  else
    match schema.findIdx? isReferralProviderCol with
    | none => schema
    | some i =>
      schema.take i ++ [referringProviderPracticeCol] ++ schema.drop i

/-- The `status` column inserted by
`withStatusEmailSentAfterApptDateTime`. -/
def statusCol : ColumnDef := ⟨"status", "Status", .text⟩

/-- The `statusUpdatedAt` column inserted by
`withStatusEmailSentAfterApptDateTime`. -/
def statusUpdatedAtCol : ColumnDef :=
  ⟨"statusUpdatedAt", "Status Updated Date", .datetime⟩

/-- The `emailSentAt` column inserted by
`withStatusEmailSentAfterApptDateTime`. -/
def emailSentAtCol : ColumnDef := ⟨"emailSentAt", "Email Sent At", .datetime⟩

/-- `withStatusEmailSentAfterApptDateTime` from `ReferralTablePage.tsx`:
when any of `status`, `statusUpdatedAt`, `emailSentAt` is missing and an
`apptDateTime` column exists, the missing ones are inserted (in that
order) immediately after it. -/
def withStatusEmailSentAfterApptDateTime (schema : List ColumnDef) :
    List ColumnDef :=
  let hasStatus := schema.any (fun c => c.key = "status")
  let hasStatusUpdatedAt := schema.any (fun c => c.key = "statusUpdatedAt")
  let hasEmailSentAt := schema.any (fun c => c.key = "emailSentAt")
  if hasStatus && hasStatusUpdatedAt && hasEmailSentAt then schema
  else
    match schema.findIdx? (fun c => c.key = "apptDateTime") with
    | none => schema
    | some i =>
      let additions :=
        (if hasStatus then [] else [statusCol]) ++
        (if hasStatusUpdatedAt then [] else [statusUpdatedAtCol]) ++
        (if hasEmailSentAt then [] else [emailSentAtCol])
      schema.take (i + 1) ++ additions ++ schema.drop (i + 1)

/-- `any` over a list with a block spliced in at position `i`. -/
theorem list_any_insert {α : Type} (p : α → Bool) (s adds : List α)
    (i : Nat) :
    (s.take i ++ adds ++ s.drop i).any p = (s.any p || adds.any p) := by
  conv_rhs => rw [← List.take_append_drop i s]
  simp only [List.any_append]
  cases h1 : (s.take i).any p <;> cases h2 : adds.any p <;>
    cases h3 : (s.drop i).any p <;> simp

/-- Removing the element spliced in at position `i ≤ l.length` restores
the original list. -/
theorem list_eraseIdx_insert {α : Type} (a : α) :
    ∀ (i : Nat) (l : List α), i ≤ l.length →
      (l.take i ++ [a] ++ l.drop i).eraseIdx i = l := by
  intro i
  induction i with
  | zero => intro l h; simp
  | succ n ih =>
    intro l h
    cases l with
    | nil => simp at h
    | cons x xs =>
      simp only [List.take_succ_cons, List.drop_succ_cons, List.cons_append,
        List.eraseIdx_cons_succ]
      rw [ih xs (by simpa using h)]

/-- A successful `findIndex` returns a position inside the list. -/
theorem findIdx?_some_lt_length {α : Type} (p : α → Bool) :
    ∀ (l : List α) (i : Nat), l.findIdx? p = some i → i < l.length := by
  intro l
  induction l with
  | nil => intro i h; simp [List.findIdx?] at h
  | cons x xs ih =>
    intro i h
    rw [List.findIdx?_cons] at h
    by_cases hx : p x
    · simp [hx] at h
      simp [← h]
    · simp [hx] at h
      obtain ⟨j, hj, rfl⟩ := h
      have := ih j hj
      simp only [List.length_cons]
      omega

/-- Claim C7: both schema-reordering helpers are idempotent and
column-preserving.  `withReferringProviderPractice` returns the schema
unchanged when no referral-provider column is found, and otherwise (when
the practice column is not already present) inserts exactly one
`referringProviderPractice` text column immediately before the
referral-provider column, keeping the original columns in relative
order (removing the inserted column restores the schema).
`withStatusEmailSentAfterApptDateTime` is likewise idempotent and only
inserts the missing ones of `status`, `statusUpdatedAt`, `emailSentAt`
immediately after the `apptDateTime` column. -/
theorem claim_C7_schema_helpers :
    (∀ s, withReferringProviderPractice (withReferringProviderPractice s) =
      withReferringProviderPractice s) ∧
    (∀ s, s.findIdx? isReferralProviderCol = none →
      withReferringProviderPractice s = s) ∧
    (∀ s i, s.any (fun c => c.key = "referringProviderPractice") = false →
      s.findIdx? isReferralProviderCol = some i →
      withReferringProviderPractice s =
        s.take i ++ [referringProviderPracticeCol] ++ s.drop i ∧
      (withReferringProviderPractice s).length = s.length + 1 ∧
      (withReferringProviderPractice s).eraseIdx i = s) ∧
    (∀ s, withStatusEmailSentAfterApptDateTime
        (withStatusEmailSentAfterApptDateTime s) =
      withStatusEmailSentAfterApptDateTime s) ∧
    (∀ s, (s.any (fun c => c.key = "status") &&
           s.any (fun c => c.key = "statusUpdatedAt") &&
           s.any (fun c => c.key = "emailSentAt")) = true →
      withStatusEmailSentAfterApptDateTime s = s) ∧
    (∀ s, s.findIdx? (fun c => c.key = "apptDateTime") = none →
      withStatusEmailSentAfterApptDateTime s = s) ∧
    (∀ s i, (s.any (fun c => c.key = "status") &&
             s.any (fun c => c.key = "statusUpdatedAt") &&
             s.any (fun c => c.key = "emailSentAt")) = false →
      s.findIdx? (fun c => c.key = "apptDateTime") = some i →
      ∃ adds, withStatusEmailSentAfterApptDateTime s =
          s.take (i + 1) ++ adds ++ s.drop (i + 1) ∧
        adds =
          (if s.any (fun c => c.key = "status") then [] else [statusCol]) ++
          (if s.any (fun c => c.key = "statusUpdatedAt") then []
           else [statusUpdatedAtCol]) ++
          (if s.any (fun c => c.key = "emailSentAt") then []
           else [emailSentAtCol]) ∧
        (statusCol ∈ adds ↔ s.any (fun c => c.key = "status") = false) ∧
        (statusUpdatedAtCol ∈ adds ↔
          s.any (fun c => c.key = "statusUpdatedAt") = false) ∧
        (emailSentAtCol ∈ adds ↔
          s.any (fun c => c.key = "emailSentAt") = false)) := by
  have hwrpp : ∀ s i, s.any (fun c => c.key = "referringProviderPractice") = false →
      s.findIdx? isReferralProviderCol = some i →
      withReferringProviderPractice s =
        s.take i ++ [referringProviderPracticeCol] ++ s.drop i := by
    intro s i h1 hf
    simp [withReferringProviderPractice, h1, hf]
  have hwses : ∀ s i, (s.any (fun c => c.key = "status") &&
        s.any (fun c => c.key = "statusUpdatedAt") &&
        s.any (fun c => c.key = "emailSentAt")) = false →
      s.findIdx? (fun c => c.key = "apptDateTime") = some i →
      withStatusEmailSentAfterApptDateTime s =
        s.take (i + 1) ++
          ((if s.any (fun c => c.key = "status") then [] else [statusCol]) ++
           (if s.any (fun c => c.key = "statusUpdatedAt") then []
            else [statusUpdatedAtCol]) ++
           (if s.any (fun c => c.key = "emailSentAt") then []
            else [emailSentAtCol])) ++ s.drop (i + 1) := by
    intro s i hall hf
    simp only [withStatusEmailSentAfterApptDateTime, hall, Bool.false_eq_true,
      if_false, hf]
  refine ⟨?_, ?_, ?_, ?_, ?_, ?_, ?_⟩
  · intro s
    by_cases h1 : s.any (fun c => c.key = "referringProviderPractice")
    · simp [withReferringProviderPractice, h1]
    · rw [Bool.not_eq_true] at h1
      cases hf : s.findIdx? isReferralProviderCol with
      | none => simp [withReferringProviderPractice, h1, hf]
      | some i =>
        rw [hwrpp s i h1 hf]
        have hany : (s.take i ++ [referringProviderPracticeCol] ++ s.drop i).any
            (fun c => c.key = "referringProviderPractice") = true := by
          rw [list_any_insert]
          simp [referringProviderPracticeCol]
        simp only [withReferringProviderPractice, hany, eq_self_iff_true,
          if_true]
  · intro s hf
    by_cases h1 : s.any (fun c => c.key = "referringProviderPractice") <;>
      simp [withReferringProviderPractice, h1, hf]
  · intro s i h1 hf
    have hi := findIdx?_some_lt_length isReferralProviderCol s i hf
    have heq := hwrpp s i h1 hf
    refine ⟨heq, ?_, ?_⟩
    · rw [heq]
      simp only [List.length_append, List.length_take, List.length_drop,
        List.length_singleton]
      omega
    · rw [heq]
      exact list_eraseIdx_insert referringProviderPracticeCol i s (le_of_lt hi)
  · intro s
    by_cases hall : (s.any (fun c => c.key = "status") &&
        s.any (fun c => c.key = "statusUpdatedAt") &&
        s.any (fun c => c.key = "emailSentAt")) = true
    · have h1 : withStatusEmailSentAfterApptDateTime s = s := by
        simp only [withStatusEmailSentAfterApptDateTime, hall, if_true]
      rw [h1, h1]
    · rw [Bool.not_eq_true] at hall
      cases hf : s.findIdx? (fun c => c.key = "apptDateTime") with
      | none =>
        have h1 : withStatusEmailSentAfterApptDateTime s = s := by
          simp [withStatusEmailSentAfterApptDateTime, hall, hf]
        rw [h1, h1]
      | some i =>
        rw [hwses s i hall hf]
        set adds :=
          (if s.any (fun c => c.key = "status") then [] else [statusCol]) ++
          (if s.any (fun c => c.key = "statusUpdatedAt") then []
           else [statusUpdatedAtCol]) ++
          (if s.any (fun c => c.key = "emailSentAt") then []
           else [emailSentAtCol]) with hadds
        have hS : (s.take (i + 1) ++ adds ++ s.drop (i + 1)).any
            (fun c => c.key = "status") = true := by
          rw [list_any_insert]
          by_cases h : s.any (fun c => c.key = "status") = true
          · simp [h]
          · rw [Bool.not_eq_true] at h
            simp [hadds, h, statusCol]
        have hU : (s.take (i + 1) ++ adds ++ s.drop (i + 1)).any
            (fun c => c.key = "statusUpdatedAt") = true := by
          rw [list_any_insert]
          by_cases h : s.any (fun c => c.key = "statusUpdatedAt") = true
          · simp [h]
          · rw [Bool.not_eq_true] at h
            simp [hadds, h, statusUpdatedAtCol]
        have hE : (s.take (i + 1) ++ adds ++ s.drop (i + 1)).any
            (fun c => c.key = "emailSentAt") = true := by
          rw [list_any_insert]
          by_cases h : s.any (fun c => c.key = "emailSentAt") = true
          · simp [h]
          · rw [Bool.not_eq_true] at h
            simp [hadds, h, emailSentAtCol]
        simp only [withStatusEmailSentAfterApptDateTime, hS, hU, hE,
          Bool.and_self, Bool.true_and, if_true]
  · intro s hall
    simp only [withStatusEmailSentAfterApptDateTime, hall, if_true]
  · intro s hf
    by_cases hall : (s.any (fun c => c.key = "status") &&
        s.any (fun c => c.key = "statusUpdatedAt") &&
        s.any (fun c => c.key = "emailSentAt")) = true
    · simp only [withStatusEmailSentAfterApptDateTime, hall, if_true]
    · rw [Bool.not_eq_true] at hall
      simp [withStatusEmailSentAfterApptDateTime, hall, hf]
  · intro s i hall hf
    refine ⟨_, hwses s i hall hf, rfl, ?_, ?_, ?_⟩ <;>
    · cases h1 : s.any (fun c => c.key = "status") <;>
      cases h2 : s.any (fun c => c.key = "statusUpdatedAt") <;>
      cases h3 : s.any (fun c => c.key = "emailSentAt") <;>
      simp [h1, h2, h3, statusCol, statusUpdatedAtCol, emailSentAtCol]

/-- Witness for C7: on a two-column schema the practice column is
inserted immediately before the referral-provider column. -/
theorem claim_C7_schema_helpers_witness :
    ([(⟨"patientName", "Patient Name", .text⟩ : ColumnDef),
      ⟨"referringProvider", "Referring Provider", .text⟩].any
        (fun c => c.key = "referringProviderPractice") = false) ∧
    ([(⟨"patientName", "Patient Name", .text⟩ : ColumnDef),
      ⟨"referringProvider", "Referring Provider", .text⟩].findIdx?
        isReferralProviderCol = some 1) ∧
    withReferringProviderPractice
        [⟨"patientName", "Patient Name", .text⟩,
         ⟨"referringProvider", "Referring Provider", .text⟩] =
      [(⟨"patientName", "Patient Name", .text⟩ : ColumnDef),
       ⟨"referringProvider", "Referring Provider", .text⟩].take 1 ++
        [referringProviderPracticeCol] ++
      [(⟨"patientName", "Patient Name", .text⟩ : ColumnDef),
       ⟨"referringProvider", "Referring Provider", .text⟩].drop 1 :=
  ⟨by decide, by decide,
   (claim_C7_schema_helpers.2.2.1
      [⟨"patientName", "Patient Name", .text⟩,
       ⟨"referringProvider", "Referring Provider", .text⟩] 1
      (by decide) (by decide)).1⟩

/-! ## C8 — `orderSchema` / `displaySchema` (column pinning,
`src/pages/ReferralTablePage.tsx`) -/

/-- `orderSchema` from `ReferralTablePage.tsx`: a fixed block of leading
keys first, then `reason` and `notes`, then the remaining columns in
their original order. -/
def orderSchema (cols : List ColumnDef) : List ColumnDef :=
  let firstKeys := ["dateReferralReceived", "patientName", "dob",
    "phoneNumber", "insurance", "referringProviderPractice",
    "referringProvider"]
  let reason := cols.find? (fun c => c.key = "reason")
  let notes := cols.find? (fun c => c.key = "notes")
  let reasonNotesRemoved :=
    cols.filter (fun c => c.key != "reason" && c.key != "notes")
  let first := firstKeys.filterMap
    (fun k => reasonNotesRemoved.find? (fun c => c.key = k))
  let firstSet := first.map (fun c => c.key)
  let middle := reasonNotesRemoved.filter
    (fun c => !(firstSet.contains c.key))
  let extras := reason.toList ++ notes.toList
  first ++ extras ++ middle

/-- Membership in the pinned set of `displaySchema`: the key is in
`pinnedKeys` and is neither `reason` nor `notes` (which are deleted from
the set before filtering). -/
def pinnedPred (pinnedKeys : List String) (c : ColumnDef) : Bool :=
  pinnedKeys.contains c.key && c.key != "reason" && c.key != "notes"

/-- `displaySchema` from `ReferralTablePage.tsx`: with no pinned keys it
is `orderedSchema` itself; otherwise the pinned columns are filtered out
first, the rest second, both in `orderedSchema` order. -/
def displaySchema (pinnedKeys : List String) (ordered : List ColumnDef) :
    List ColumnDef :=
  if pinnedKeys.isEmpty then ordered
  else
    ordered.filter (pinnedPred pinnedKeys) ++
      ordered.filter (fun c => !(pinnedPred pinnedKeys c))

/-- Claim C8: `displaySchema` is a permutation of `orderedSchema` that
lists the pinned columns (never `reason` or `notes`) first in
`orderedSchema` order, followed by the remaining columns in
`orderedSchema` order, and equals `orderedSchema` when nothing is
pinned. -/
theorem claim_C8_displaySchema (schema : List ColumnDef)
    (pinnedKeys : List String) :
    (displaySchema pinnedKeys (orderSchema schema)).Perm
      (orderSchema schema) ∧
    displaySchema pinnedKeys (orderSchema schema) =
      (orderSchema schema).filter (pinnedPred pinnedKeys) ++
        (orderSchema schema).filter
          (fun c => !(pinnedPred pinnedKeys c)) ∧
    (∀ c, pinnedPred pinnedKeys c = true ↔
      c.key ∈ pinnedKeys ∧ c.key ≠ "reason" ∧ c.key ≠ "notes") ∧
    (pinnedKeys = [] →
      displaySchema pinnedKeys (orderSchema schema) = orderSchema schema) := by
  have hmain : displaySchema pinnedKeys (orderSchema schema) =
      (orderSchema schema).filter (pinnedPred pinnedKeys) ++
        (orderSchema schema).filter
          (fun c => !(pinnedPred pinnedKeys c)) := by
    unfold displaySchema
    by_cases hpk : pinnedKeys.isEmpty
    · have hpk2 : pinnedKeys = [] := List.isEmpty_iff.mp hpk
      subst hpk2
      simp [pinnedPred]
    · simp [hpk]
  refine ⟨?_, hmain, ?_, ?_⟩
  · rw [hmain]
    exact List.filter_append_perm _ _
  · intro c
    simp [pinnedPred, bne_iff_ne, and_assoc]
  · intro h
    subst h
    rw [hmain]
    simp [pinnedPred]

/-- Witness for C8: with no pinned keys the displayed schema is the
ordered schema itself. -/
theorem claim_C8_displaySchema_witness :
    displaySchema [] (orderSchema [⟨"notes", "Notes", .text⟩]) =
      orderSchema [⟨"notes", "Notes", .text⟩] :=
  (claim_C8_displaySchema [⟨"notes", "Notes", .text⟩] []).2.2.2 rfl

/-! ## C9 — communication-completion buckets
(`src/pages/ReportsPage.tsx`) -/

/-- `isNonEmptyString` from `ReportsPage.tsx`: the value is a string
whose trimmed length is positive. -/
def isNonEmptyString (v : Option RowValue) : Bool :=
  match v with
  | some (.str s) => jsTrim s != ""
  | _ => false

/-- The slice of a report row read by `getCommCompletionBucket`. -/
structure ReportRow where
  firstPatientCommunication : Option RowValue
  secondPatientCommunication : Option RowValue
  thirdPatientCommunication : Option RowValue
deriving DecidableEq, Repr

/-- The four communication-completion buckets of `ReportsPage.tsx`
(`'all_three' | 'first_second' | 'first_only' | 'none'`). -/
inductive CommBucket where
  | allThree
  | firstSecond
  | firstOnly
  | noneBucket
deriving DecidableEq, Repr

/-- `getCommCompletionBucket` from `ReportsPage.tsx`. -/
def getCommCompletionBucket (row : ReportRow) : CommBucket :=
  let first := isNonEmptyString row.firstPatientCommunication
  let second := isNonEmptyString row.secondPatientCommunication
  let third := isNonEmptyString row.thirdPatientCommunication
  if first && second && third then .allThree
  else if first && second then .firstSecond
  else if first then .firstOnly
  else .noneBucket

/-- The counters accumulated by the `commStats` memo
(`firstOnly`, `firstSecond`, `allThree`, `none`). -/
structure CommStats where
  firstOnly : Nat
  firstSecond : Nat
  allThree : Nat
  noneCount : Nat
deriving DecidableEq, Repr

/-- `commStats` from `ReportsPage.tsx`: one counter increment per
filtered row, dispatched on its bucket. -/
def commStats : List ReportRow → CommStats
  | [] => ⟨0, 0, 0, 0⟩
  | r :: rs =>
    let s := commStats rs
    match getCommCompletionBucket r with
    | .allThree => { s with allThree := s.allThree + 1 }
    | .firstSecond => { s with firstSecond := s.firstSecond + 1 }
    | .firstOnly => { s with firstOnly := s.firstOnly + 1 }
    | .noneBucket => { s with noneCount := s.noneCount + 1 }

/-- A row lands in the `none` bucket exactly when its first
communication is blank. -/
theorem bucket_noneBucket_iff (r : ReportRow) :
    getCommCompletionBucket r = .noneBucket ↔
      isNonEmptyString r.firstPatientCommunication = false := by
  cases hf : isNonEmptyString r.firstPatientCommunication <;>
    cases hs : isNonEmptyString r.secondPatientCommunication <;>
      cases ht : isNonEmptyString r.thirdPatientCommunication <;>
        simp [getCommCompletionBucket, hf, hs, ht]

/-- Claim C9: every report row falls into exactly one of the four
buckets; `first_second` requires both the first and the second
communication non-blank; first + third without second counts as
`first_only`; no first communication counts as `none`; and the donut
denominator `firstOnly + firstSecond + allThree` equals the number of
rows whose first communication is non-blank (with the `none` counter
absorbing the rest of the row count). -/
theorem claim_C9_comm_buckets :
    (∀ r : ReportRow,
      (getCommCompletionBucket r = .allThree ∨
       getCommCompletionBucket r = .firstSecond ∨
       getCommCompletionBucket r = .firstOnly ∨
       getCommCompletionBucket r = .noneBucket) ∧
      (getCommCompletionBucket r = .firstSecond →
        isNonEmptyString r.firstPatientCommunication = true ∧
        isNonEmptyString r.secondPatientCommunication = true) ∧
      (isNonEmptyString r.firstPatientCommunication = true →
        isNonEmptyString r.thirdPatientCommunication = true →
        isNonEmptyString r.secondPatientCommunication = false →
        getCommCompletionBucket r = .firstOnly) ∧
      (isNonEmptyString r.firstPatientCommunication = false →
        getCommCompletionBucket r = .noneBucket)) ∧
    (∀ rows : List ReportRow,
      (commStats rows).firstOnly + (commStats rows).firstSecond +
          (commStats rows).allThree =
        rows.countP
          (fun r => isNonEmptyString r.firstPatientCommunication) ∧
      (commStats rows).firstOnly + (commStats rows).firstSecond +
          (commStats rows).allThree + (commStats rows).noneCount =
        rows.length) := by
  constructor
  · intro r
    refine ⟨?_, ?_, ?_, ?_⟩ <;>
    · cases hf : isNonEmptyString r.firstPatientCommunication <;>
        cases hs : isNonEmptyString r.secondPatientCommunication <;>
          cases ht : isNonEmptyString r.thirdPatientCommunication <;>
            simp [getCommCompletionBucket, hf, hs, ht]
  · intro rows
    induction rows with
    | nil => simp [commStats]
    | cons r rs ih =>
      have hcnt : rs.countP
          (fun x => isNonEmptyString x.firstPatientCommunication) +
            (if isNonEmptyString r.firstPatientCommunication then 1 else 0) =
          (r :: rs).countP
            (fun x => isNonEmptyString x.firstPatientCommunication) := by
        simp [List.countP_cons]
      cases hb : getCommCompletionBucket r
      all_goals
        have hfirst := (bucket_noneBucket_iff r)
        simp only [commStats, hb]
        rw [← hcnt]
      · have hf : isNonEmptyString r.firstPatientCommunication = true := by
          cases h : isNonEmptyString r.firstPatientCommunication
          · exact absurd (hfirst.mpr h) (by simp [hb])
          · rfl
        refine ⟨?_, ?_⟩ <;> simp [hf] <;> try omega
      · have hf : isNonEmptyString r.firstPatientCommunication = true := by
          cases h : isNonEmptyString r.firstPatientCommunication
          · exact absurd (hfirst.mpr h) (by simp [hb])
          · rfl
        refine ⟨?_, ?_⟩ <;> simp [hf] <;> try omega
      · have hf : isNonEmptyString r.firstPatientCommunication = true := by
          cases h : isNonEmptyString r.firstPatientCommunication
          · exact absurd (hfirst.mpr h) (by simp [hb])
          · rfl
        refine ⟨?_, ?_⟩ <;> simp [hf] <;> try omega
      · have hf : isNonEmptyString r.firstPatientCommunication = false :=
          hfirst.mp hb
        refine ⟨?_, ?_⟩ <;> simp [hf] <;> try omega

/-- Witness for C9: first and third communication set but the second
blank lands in the `first_only` bucket. -/
theorem claim_C9_comm_buckets_witness :
    isNonEmptyString (some (RowValue.str "2024-01-01")) = true ∧
    getCommCompletionBucket
      ⟨some (.str "2024-01-01"), some (.str "  "),
        some (.str "2024-01-03")⟩ = .firstOnly :=
  ⟨by decide,
   (claim_C9_comm_buckets.1
      ⟨some (.str "2024-01-01"), some (.str "  "),
        some (.str "2024-01-03")⟩).2.2.1
     (by decide) (by decide) (by decide)⟩

/-! ## C3 — `saveDraft` validation
(`src/pages/ReferralTablePage.tsx`) -/

/-- The editor draft: `Record<string, RowValue>`, with absent keys
reading as `undefined`. -/
def Draft := String → Option RowValue

/-- `typeof draft[key] === 'string' ? draft[key].trim() : ''`. -/
def draftTrimStr (d : Draft) (k : String) : String :=
  jsTrim (jsStrOnly (d k))

/-- `schemaKeys.has(k)` for `schemaKeys = new Set(editorSchema.map(c =>
c.key))`. -/
def schemaHasKey (schema : List ColumnDef) (k : String) : Bool :=
  (schema.map (fun c => c.key)).contains k

/-- `editorSchema.find(c => c.key === k)?.label ?? dflt`. -/
def findLabel (schema : List ColumnDef) (k dflt : String) : String :=
  match schema.find? (fun c => c.key = k) with
  | some c => c.label
  | none => dflt

/-- The required-field loop of `saveDraft`: for each of the four
required keys present in the schema whose trimmed draft value is blank,
the column label is collected. -/
def requiredMissingLabels (schema : List ColumnDef) (d : Draft) :
    List String :=
  ["dateReferralReceived", "patientName", "dob", "phoneNumber"].filterMap
    (fun k =>
      if !(schemaHasKey schema k) then none
      else if draftTrimStr d k = "" then some (findLabel schema k k)
      else none)

/-- `phoneRaw.replace(/\D+/g, '')`: keep only the digits. -/
def jsDigits (s : String) : String :=
  String.mk (s.data.filter Char.isDigit)

/-- `Array.from(new Set(xs))`: deduplicate keeping first occurrences. -/
def firstDedup (seen : List String) : List String → List String
  | [] => []
  | x :: xs =>
    if seen.contains x then firstDedup seen xs
    else x :: firstDedup (x :: seen) xs

/-- How `saveDraft` returns: bail out with no session, reject with an
on-screen save error (an early `setSaveError(msg); return` — no remote
insert or update is issued and `setRows` is never called, so the loaded
row list is untouched), or proceed to the remote persist block. -/
inductive SaveDraftResult where
  | noSession
  | rejected (msg : String)
  | persist
deriving DecidableEq, Repr

/-- The synchronous validation prefix of `saveDraft` from
`ReferralTablePage.tsx`, mirrored check by check in source order:
missing `uid`; required-field collection; the 10-digit phone check; the
practice/provider requirements; then the status cross-field checks for
`APPT_SCHEDULED` and `NO_RESPONSE_3_ATTEMPTS`.  Everything after the
last check (payload construction and the remote insert/update) is
`persist`. -/
def saveDraft (uid : Option String) (schema : List ColumnDef) (d : Draft) :
    SaveDraftResult :=
  if !(optStrTruthy uid) then .noSession
  else
    let missing1 := requiredMissingLabels schema d
    if schemaHasKey schema "phoneNumber" &&
        (jsDigits (jsStrOnly (d "phoneNumber"))).length != 10 then
      .rejected (findLabel schema "phoneNumber" "Phone Number" ++
        " must be exactly 10 digits")
    else
      let practice := draftTrimStr d "referringProviderPractice"
      let missing2 := missing1 ++
        (if practice = "" then ["Referral Provider Practice"] else [])
      let providerId := draftTrimStr d "referringProviderId"
      let providerText := draftTrimStr d "referringProvider"
      let providerIsSelected := providerId != ""
      let providerNeedsText :=
        providerId = "__other__" || practice = "__other_practice__"
      let missing3 := missing2 ++
        (if !providerIsSelected && practice != "__other_practice__"
         then ["Referral Provider"] else [])
      let missing4 := missing3 ++
        (if providerNeedsText && providerText = ""
         then ["Referral Provider"] else [])
      if missing4.length > 0 then
        .rejected ("Please fill: " ++ joinWith ", " (firstDedup [] missing4))
      else
        let nextStatusInput := draftTrimStr d "status"
        let nextApptDateTime := draftTrimStr d "apptDateTime"
        let nextThirdCommunication :=
          draftTrimStr d "thirdPatientCommunication"
        if nextStatusInput = "APPT_SCHEDULED" &&
            schemaHasKey schema "apptDateTime" &&
            nextApptDateTime = "" then
          .rejected (findLabel schema "apptDateTime" "Appt date/time" ++
            " must be set when Status is Appt scheduled")
        else if nextStatusInput = "NO_RESPONSE_3_ATTEMPTS" &&
            schemaHasKey schema "thirdPatientCommunication" &&
            nextThirdCommunication = "" then
          .rejected (findLabel schema "thirdPatientCommunication"
              "3rd patient communication" ++
            " must be set when Status is No response (3 attempts)")
        else if nextStatusInput = "NO_RESPONSE_3_ATTEMPTS" &&
            schemaHasKey schema "apptDateTime" &&
            nextApptDateTime != "" then
          .rejected (findLabel schema "apptDateTime" "Appt date/time" ++
            " must be empty when Status is No response (3 attempts)")
        else .persist

/-- Whether `saveDraft` reaches the remote insert/update block (the only
code path that can change the loaded row list). -/
def saveDraftTouchesRemote (res : SaveDraftResult) : Bool :=
  match res with
  | .persist => true
  | _ => false

/-- Claim C3: for a signed-in user, `saveDraft` rejects with an on-screen
save error — issuing no remote insert or update and leaving the loaded
rows unchanged — whenever the draft's phone number does not reduce to
exactly 10 digits, or the status is `APPT_SCHEDULED` with a blank
appointment date/time, or the status is `NO_RESPONSE_3_ATTEMPTS` with a
blank third patient communication or a non-blank appointment date/time
(each check applying when the schema contains the field involved). -/
theorem claim_C3_saveDraft (uid : String) (schema : List ColumnDef)
    (d : Draft) (huid : uid ≠ "")
    (hcond :
      (schemaHasKey schema "phoneNumber" = true ∧
        (jsDigits (jsStrOnly (d "phoneNumber"))).length ≠ 10) ∨
      (jsTrim (jsStrOnly (d "status")) = "APPT_SCHEDULED" ∧
        schemaHasKey schema "apptDateTime" = true ∧
        jsTrim (jsStrOnly (d "apptDateTime")) = "") ∨
      (jsTrim (jsStrOnly (d "status")) = "NO_RESPONSE_3_ATTEMPTS" ∧
        ((schemaHasKey schema "thirdPatientCommunication" = true ∧
          jsTrim (jsStrOnly (d "thirdPatientCommunication")) = "") ∨
         (schemaHasKey schema "apptDateTime" = true ∧
          jsTrim (jsStrOnly (d "apptDateTime")) ≠ "")))) :
    ∃ msg, saveDraft (some uid) schema d = .rejected msg ∧
      saveDraftTouchesRemote (saveDraft (some uid) schema d) = false := by
  have htruthy : optStrTruthy (some uid) = true := by
    simp [optStrTruthy, bne_iff_ne, huid]
  rcases hres : saveDraft (some uid) schema d with _ | msg | _
  · exfalso
    simp only [saveDraft, htruthy, Bool.not_true, Bool.false_eq_true,
      if_false] at hres
    iterate 10 (all_goals try split at hres)
    all_goals simp at hres
  · exact ⟨msg, rfl, rfl⟩
  · exfalso
    simp only [saveDraft, htruthy, Bool.not_true, Bool.false_eq_true,
      if_false] at hres
    iterate 10 (all_goals try split at hres)
    all_goals try simp at hres
    all_goals
      rcases hcond with ⟨h1, h2⟩ | ⟨h1, h2, h3⟩ | ⟨h1, ⟨h2, h3⟩ | ⟨h2, h3⟩⟩ <;>
        simp_all [draftTrimStr]

/-- Witness for C3: a draft whose phone digits are `123` is rejected by
`saveDraft` and never reaches the remote persist block. -/
theorem claim_C3_saveDraft_witness :
    ("u1" : String) ≠ "" ∧
    schemaHasKey [(⟨"phoneNumber", "Phone Number", .text⟩ : ColumnDef)]
        "phoneNumber" = true ∧
    (jsDigits (jsStrOnly ((fun k =>
        if k = "phoneNumber" then some (RowValue.str "123") else none)
        "phoneNumber"))).length ≠ 10 ∧
    ∃ msg, saveDraft (some "u1") [⟨"phoneNumber", "Phone Number", .text⟩]
        (fun k => if k = "phoneNumber" then some (.str "123") else none) =
          .rejected msg ∧
      saveDraftTouchesRemote (saveDraft (some "u1")
        [⟨"phoneNumber", "Phone Number", .text⟩]
        (fun k => if k = "phoneNumber" then some (.str "123") else none)) =
          false :=
  ⟨by decide, by decide, by decide,
   claim_C3_saveDraft "u1" [⟨"phoneNumber", "Phone Number", .text⟩]
     (fun k => if k = "phoneNumber" then some (.str "123") else none)
     (by decide) (Or.inl ⟨by decide, by decide⟩)⟩
